import Mathlib

/-!
Verification of the invoice-processing pipeline
(`src/invoice_processor`): the data model (`models/invoice.py`), the
workflow tasks `extract_invoice_structure` and `flatten_invoice_data`
(`workflows/invoice_workflow.py`), the reporting functions of
`utils/summary_generator.py`, and the file-handling functions of
`utils/file_utils.py`.

Modelling conventions:
* Python `Optional[T]` becomes `Option T`; `Decimal` becomes `ℚ`
  (decimals are exact rationals); `date` fields are carried as opaque
  `Option String` (no claim inspects their internal structure).
* Python `str.strip()` is `pyStrip` (drop whitespace at both ends,
  code-point wise); slicing `s[:n]` is `String.take`.
* `pathlib` paths appear in two guises, matching how the source uses
  them: as raw strings (for `Path(file_path).stem` inside the
  workflow) and as component lists (for the filesystem-level
  functions of `file_utils.py`).
* The external AI backends are an opaque parameter
  `ai : String → String → Option Invoice` (`AIExtractor.extract_invoice_data`
  returns `None` exactly when no backend produced usable data).
-/

set_option maxRecDepth 8192

namespace InvoiceProc

/-! ## String and path helpers -/

/-- Python `str.strip()`: remove leading and trailing whitespace. -/
def pyStrip (s : String) : String :=
  String.mk (((s.data.dropWhile Char.isWhitespace).reverse.dropWhile
    Char.isWhitespace).reverse)

/-- Index of the last `'.'` in a file name (as in the CPython expression
`name.rfind('.')`, `none` when absent). -/
def lastDotIdx (name : String) : Option Nat :=
  match name.data.reverse.findIdx? (· = '.') with
  | some j => some (name.data.length - 1 - j)
  | none => none

/-- `PurePath.stem`: the final component without its extension.
CPython keeps the whole name when the last dot is at index `0`
(hidden files) or is the final character. -/
def stemOf (name : String) : String :=
  match lastDotIdx name with
  | some i =>
    if 0 < i ∧ i < name.data.length - 1 then String.mk (name.data.take i)
    else name
  | none => name

/-- `PurePath.suffix`: the extension of the final component, `""` when
the name has none (same dot rule as `stemOf`). -/
def suffixOf (name : String) : String :=
  match lastDotIdx name with
  | some i =>
    if 0 < i ∧ i < name.data.length - 1 then String.mk (name.data.drop i)
    else ""
  | none => ""

/-- The final component of a POSIX path given as a string
(`Path(file_path).name`). -/
def pathNameStr (s : String) : String :=
  ((s.splitOn "/").filter (fun c => c ≠ "")).getLastD ""

/-- `Path(file_path).stem` for a path given as a string. -/
def pathStemStr (s : String) : String :=
  stemOf (pathNameStr s)

/-! ## Data model (`models/invoice.py`) -/

/-- `InvoiceLineItem`: one billed item; only the description is
required. -/
structure InvoiceLineItem where
  item_description : String
  quantity : Option ℚ := none
  unit_price : Option ℚ := none
  line_total : Option ℚ := none
  item_code : Option String := none
deriving DecidableEq, Repr

/-- `InvoiceHeader`: document-level metadata, all optional; the
currency defaults to `"USD"`. -/
structure InvoiceHeader where
  invoice_number : Option String := none
  invoice_date : Option String := none
  due_date : Option String := none
  vendor_name : Option String := none
  vendor_address : Option String := none
  vendor_tax_id : Option String := none
  customer_name : Option String := none
  customer_address : Option String := none
  total_amount : Option ℚ := none
  tax_amount : Option ℚ := none
  subtotal : Option ℚ := none
  currency : Option String := some "USD"
deriving DecidableEq, Repr

/-- `Invoice`: header plus ordered line items plus provenance. -/
structure Invoice where
  header : InvoiceHeader
  line_items : List InvoiceLineItem := []
  raw_text : Option String := none
  file_path : String
  processing_timestamp : Option String := none
deriving DecidableEq, Repr

/-- `FlatInvoiceRecord`: header fields duplicated next to one line
fields of one line item, plus provenance. -/
structure FlatInvoiceRecord where
  invoice_number : Option String := none
  invoice_date : Option String := none
  due_date : Option String := none
  vendor_name : Option String := none
  vendor_address : Option String := none
  vendor_tax_id : Option String := none
  customer_name : Option String := none
  customer_address : Option String := none
  total_amount : Option ℚ := none
  tax_amount : Option ℚ := none
  subtotal : Option ℚ := none
  currency : Option String := some "USD"
  item_description : String
  quantity : Option ℚ := none
  unit_price : Option ℚ := none
  line_total : Option ℚ := none
  item_code : Option String := none
  file_path : String
  processing_timestamp : Option String := none
deriving DecidableEq, Repr

/-- The header fields carried by a flat record, reassembled, so that
"identical copies of the header fields" is a single equation. -/
def headerPart (r : FlatInvoiceRecord) : InvoiceHeader :=
  { invoice_number := r.invoice_number
    invoice_date := r.invoice_date
    due_date := r.due_date
    vendor_name := r.vendor_name
    vendor_address := r.vendor_address
    vendor_tax_id := r.vendor_tax_id
    customer_name := r.customer_name
    customer_address := r.customer_address
    total_amount := r.total_amount
    tax_amount := r.tax_amount
    subtotal := r.subtotal
    currency := r.currency }

/-! ## `extract_invoice_structure` (`workflows/invoice_workflow.py`) -/

/-- The degraded placeholder invoice built when the AI extractor
returns nothing (lines 66–88 of `invoice_workflow.py`). -/
def placeholderInvoice (text : String) (file_path : String) : Invoice :=
  { header :=
      { invoice_number := some (pathStemStr file_path)
        vendor_name := some "Unknown (OCR only)"
        total_amount := none }
    line_items :=
      [{ item_description :=
          "OCR Text (AI extraction failed): " ++ text.take 500 ++ "..." }]
    raw_text := some text
    file_path := file_path }

/-- `extract_invoice_structure(text, file_path)`, with the AI backend
chain abstracted as `ai`.  the Python test `not text` is true for `None` and
for the empty string; then `len(text.strip()) < 20` is tested. -/
def extract_invoice_structure (ai : String → String → Option Invoice)
    (text : Option String) (file_path : String) : Option Invoice :=
  match text with
  | none => none
  | some t =>
    if t = "" ∨ (pyStrip t).length < 20 then none
    else
      match ai t file_path with
      | some invoice => some invoice
      | none => some (placeholderInvoice t file_path)

/-! ## Theorems for C1 and C2 -/

/-- C1. `extract_invoice_structure` returns `none` iff the text is
absent or its stripped length is below 20; in that case the result
does not depend on the AI backend (no backend is consulted), and for
any stripped length ≥ 20 an invoice is always returned. -/
theorem extract_none_iff (ai : String → String → Option Invoice)
    (text : Option String) (file_path : String) :
    (extract_invoice_structure ai text file_path = none ↔
      (text = none ∨ ∃ t, text = some t ∧ (pyStrip t).length < 20)) ∧
    ((text = none ∨ ∃ t, text = some t ∧ (pyStrip t).length < 20) →
      ∀ ai' : String → String → Option Invoice,
        extract_invoice_structure ai text file_path =
          extract_invoice_structure ai' text file_path) := by
  constructor
  · cases text with
    | none => simp [extract_invoice_structure]
    | some t =>
      simp only [extract_invoice_structure]
      by_cases hg : t = "" ∨ (pyStrip t).length < 20
      · simp only [if_pos hg]
        constructor
        · intro _
          right
          refine ⟨t, rfl, ?_⟩
          rcases hg with h0 | hlen
          · subst h0; decide
          · exact hlen
        · intro _; trivial
      · simp only [if_neg hg]
        constructor
        · intro h
          cases hai : ai t file_path with
          | none => rw [hai] at h; exact absurd h (by simp)
          | some inv => rw [hai] at h; exact absurd h (by simp)
        · rintro (h | ⟨t', ht', hlen⟩)
          · exact absurd h (by simp)
          · cases ht'
            exact absurd (Or.inr hlen) hg
  · rintro (h | ⟨t, ht, hlen⟩) ai'
    · subst h; rfl
    · subst ht
      have hg : t = "" ∨ (pyStrip t).length < 20 := Or.inr hlen
      simp [extract_invoice_structure, if_pos hg]

/-- Closed witness for `extract_none_iff` at a concrete short text. -/
theorem extract_none_iff_witness :
    extract_invoice_structure (fun _ _ => none) (some "short") "f.pdf" =
        extract_invoice_structure (fun t fp => some (placeholderInvoice t fp))
          (some "short") "f.pdf" :=
  (extract_none_iff (fun _ _ => none) (some "short") "f.pdf").2
    (Or.inr ⟨"short", rfl, by decide⟩)
    (fun t fp => some (placeholderInvoice t fp))

/-- C2. When the text is long enough but the AI chain yields nothing,
the returned invoice is the placeholder: the sentinel vendor name, the
filename stem as invoice number, and exactly one line item embedding
the marker plus (at most) the first 500 characters of the text. -/
theorem extract_placeholder_shape (ai : String → String → Option Invoice)
    (t file_path : String) (hlen : 20 ≤ (pyStrip t).length)
    (hai : ai t file_path = none) :
    extract_invoice_structure ai (some t) file_path =
      some (placeholderInvoice t file_path) ∧
    (placeholderInvoice t file_path).header.vendor_name =
      some "Unknown (OCR only)" ∧
    (placeholderInvoice t file_path).header.invoice_number =
      some (pathStemStr file_path) ∧
    (placeholderInvoice t file_path).line_items =
      [{ item_description :=
          "OCR Text (AI extraction failed): " ++ t.take 500 ++ "..." }] ∧
    (t.take 500).length ≤ 500 ∧
    (∃ u, t = t.take 500 ++ u) := by
  have hguard : ¬(t = "" ∨ (pyStrip t).length < 20) := by
    rintro (h0 | hlt)
    · subst h0; exact absurd hlen (by decide)
    · omega
  refine ⟨?_, rfl, rfl, rfl, ?_, ?_⟩
  · simp [extract_invoice_structure, if_neg hguard, hai]
  · have hl : ∀ s : String, s.length = s.data.length := fun _ => rfl
    rw [hl, String.data_take, List.length_take]
    exact min_le_left _ _
  · refine ⟨t.drop 500, ?_⟩
    apply String.ext
    rw [String.data_append, String.data_take, String.data_drop,
      List.take_append_drop]

/-- Closed witness for `extract_placeholder_shape` on a 25-character
text. -/
theorem extract_placeholder_shape_witness :
    extract_invoice_structure (fun _ _ => none)
        (some "INVOICE 12345 TOTAL 99.99") "data/input/inv1.pdf" =
      some (placeholderInvoice "INVOICE 12345 TOTAL 99.99"
        "data/input/inv1.pdf") ∧
    (placeholderInvoice "INVOICE 12345 TOTAL 99.99"
        "data/input/inv1.pdf").header.vendor_name =
      some "Unknown (OCR only)" ∧
    (placeholderInvoice "INVOICE 12345 TOTAL 99.99"
        "data/input/inv1.pdf").header.invoice_number =
      some (pathStemStr "data/input/inv1.pdf") ∧
    (placeholderInvoice "INVOICE 12345 TOTAL 99.99"
        "data/input/inv1.pdf").line_items =
      [{ item_description := "OCR Text (AI extraction failed): " ++
          "INVOICE 12345 TOTAL 99.99".take 500 ++ "..." }] ∧
    ("INVOICE 12345 TOTAL 99.99".take 500).length ≤ 500 ∧
    (∃ u, "INVOICE 12345 TOTAL 99.99" =
      "INVOICE 12345 TOTAL 99.99".take 500 ++ u) :=
  extract_placeholder_shape (fun _ _ => none) "INVOICE 12345 TOTAL 99.99"
    "data/input/inv1.pdf" (by decide) rfl

/-! ## `flatten_invoice_data` (`workflows/invoice_workflow.py`) -/

/-- `flatten_invoice_data(invoice)`: one flat record per line item, or
one sentinel record when there are none.  The timestamp captured by
`datetime.now().isoformat()` is passed in explicitly. -/
def flatten_invoice_data (processing_timestamp : String)
    (invoice : Invoice) : List FlatInvoiceRecord :=
  if invoice.line_items = [] then
    [{ invoice_number := invoice.header.invoice_number
       invoice_date := invoice.header.invoice_date
       due_date := invoice.header.due_date
       vendor_name := invoice.header.vendor_name
       vendor_address := invoice.header.vendor_address
       vendor_tax_id := invoice.header.vendor_tax_id
       customer_name := invoice.header.customer_name
       customer_address := invoice.header.customer_address
       total_amount := invoice.header.total_amount
       tax_amount := invoice.header.tax_amount
       subtotal := invoice.header.subtotal
       currency := invoice.header.currency
       item_description := "No line items found"
       quantity := none
       unit_price := none
       line_total := none
       item_code := none
       file_path := invoice.file_path
       processing_timestamp := some processing_timestamp }]
  else
    invoice.line_items.map (fun line_item =>
      { invoice_number := invoice.header.invoice_number
        invoice_date := invoice.header.invoice_date
        due_date := invoice.header.due_date
        vendor_name := invoice.header.vendor_name
        vendor_address := invoice.header.vendor_address
        vendor_tax_id := invoice.header.vendor_tax_id
        customer_name := invoice.header.customer_name
        customer_address := invoice.header.customer_address
        total_amount := invoice.header.total_amount
        tax_amount := invoice.header.tax_amount
        subtotal := invoice.header.subtotal
        currency := invoice.header.currency
        item_description := line_item.item_description
        quantity := line_item.quantity
        unit_price := line_item.unit_price
        line_total := line_item.line_total
        item_code := line_item.item_code
        file_path := invoice.file_path
        processing_timestamp := some processing_timestamp })

/-- C3. With `k ≥ 1` line items, flattening yields exactly `k` records
in order, record `i` carrying the fields of line item `i` and a copy of the
header; the length is always `max 1 k`. -/
theorem flatten_preserves_items (ts : String) (inv : Invoice) :
    ((flatten_invoice_data ts inv).length = max 1 inv.line_items.length) ∧
    (inv.line_items ≠ [] →
      (flatten_invoice_data ts inv).length = inv.line_items.length ∧
      ∀ i (h1 : i < (flatten_invoice_data ts inv).length)
        (h2 : i < inv.line_items.length),
        headerPart ((flatten_invoice_data ts inv).get ⟨i, h1⟩) = inv.header ∧
        ((flatten_invoice_data ts inv).get ⟨i, h1⟩).item_description =
          (inv.line_items.get ⟨i, h2⟩).item_description ∧
        ((flatten_invoice_data ts inv).get ⟨i, h1⟩).quantity =
          (inv.line_items.get ⟨i, h2⟩).quantity ∧
        ((flatten_invoice_data ts inv).get ⟨i, h1⟩).unit_price =
          (inv.line_items.get ⟨i, h2⟩).unit_price ∧
        ((flatten_invoice_data ts inv).get ⟨i, h1⟩).line_total =
          (inv.line_items.get ⟨i, h2⟩).line_total ∧
        ((flatten_invoice_data ts inv).get ⟨i, h1⟩).item_code =
          (inv.line_items.get ⟨i, h2⟩).item_code) := by
  by_cases h : inv.line_items = []
  · constructor
    · simp [flatten_invoice_data, h]
    · intro hne; exact absurd h hne
  · have hlen : (flatten_invoice_data ts inv).length =
        inv.line_items.length := by
      simp [flatten_invoice_data, if_neg h]
    constructor
    · rw [hlen]
      have : 1 ≤ inv.line_items.length := by
        cases hl : inv.line_items with
        | nil => exact absurd hl h
        | cons a l => simp
      omega
    · intro _
      refine ⟨hlen, ?_⟩
      intro i h1 h2
      simp only [List.get_eq_getElem]
      simp only [flatten_invoice_data, if_neg h, List.getElem_map]
      exact ⟨rfl, trivial, trivial, trivial, trivial, trivial⟩

/-- Closed witness for `flatten_preserves_items` on a two-item
invoice. -/
theorem flatten_preserves_items_witness :
    ((flatten_invoice_data "T"
        { header := { vendor_name := some "Acme" }
          line_items := [{ item_description := "Widget" },
            { item_description := "Gadget", quantity := some 2 }]
          file_path := "a.pdf" }).length =
      max 1 ([{ item_description := "Widget" },
        { item_description := "Gadget",
          quantity := some 2 : InvoiceLineItem }].length)) ∧
    (flatten_invoice_data "T"
        { header := { vendor_name := some "Acme" }
          line_items := [{ item_description := "Widget" },
            { item_description := "Gadget", quantity := some 2 }]
          file_path := "a.pdf" }).length = 2 ∧
    headerPart ((flatten_invoice_data "T"
        { header := { vendor_name := some "Acme" }
          line_items := [{ item_description := "Widget" },
            { item_description := "Gadget", quantity := some 2 }]
          file_path := "a.pdf" }).get ⟨1, by decide⟩) =
      { vendor_name := some "Acme" } ∧
    ((flatten_invoice_data "T"
        { header := { vendor_name := some "Acme" }
          line_items := [{ item_description := "Widget" },
            { item_description := "Gadget", quantity := some 2 }]
          file_path := "a.pdf" }).get ⟨1, by decide⟩).item_description =
      "Gadget" := by
  have h := flatten_preserves_items "T"
    { header := { vendor_name := some "Acme" }
      line_items := [{ item_description := "Widget" },
        { item_description := "Gadget", quantity := some 2 }]
      file_path := "a.pdf" }
  have h2 := h.2 (by decide)
  refine ⟨h.1, h2.1, ?_, ?_⟩
  · exact ((h2.2 1 (by decide) (by decide)).1).trans rfl
  · exact ((h2.2 1 (by decide) (by decide)).2.1).trans rfl

/-- C4. With zero line items, flattening yields exactly one record:
header fields copied, the sentinel description, and all four line-item
fields null. -/
theorem flatten_no_items (ts : String) (inv : Invoice)
    (h : inv.line_items = []) :
    flatten_invoice_data ts inv =
      [{ invoice_number := inv.header.invoice_number
         invoice_date := inv.header.invoice_date
         due_date := inv.header.due_date
         vendor_name := inv.header.vendor_name
         vendor_address := inv.header.vendor_address
         vendor_tax_id := inv.header.vendor_tax_id
         customer_name := inv.header.customer_name
         customer_address := inv.header.customer_address
         total_amount := inv.header.total_amount
         tax_amount := inv.header.tax_amount
         subtotal := inv.header.subtotal
         currency := inv.header.currency
         item_description := "No line items found"
         quantity := none
         unit_price := none
         line_total := none
         item_code := none
         file_path := inv.file_path
         processing_timestamp := some ts }] ∧
    ∀ r ∈ flatten_invoice_data ts inv,
      headerPart r = inv.header ∧
      r.item_description = "No line items found" ∧
      r.quantity = none ∧ r.unit_price = none ∧
      r.line_total = none ∧ r.item_code = none := by
  constructor
  · simp [flatten_invoice_data, h]
  · intro r hr
    simp only [flatten_invoice_data, if_pos h, List.mem_singleton] at hr
    subst hr
    exact ⟨rfl, rfl, rfl, rfl, rfl, rfl⟩

/-- Closed witness for `flatten_no_items` on an itemless invoice. -/
theorem flatten_no_items_witness :
    flatten_invoice_data "T"
        { header := { vendor_name := some "Acme", total_amount := some 7 }
          line_items := []
          file_path := "b.pdf" } =
      [{ vendor_name := some "Acme"
         total_amount := some 7
         item_description := "No line items found"
         file_path := "b.pdf"
         processing_timestamp := some "T" }] ∧
    ∀ r ∈ flatten_invoice_data "T"
        { header := { vendor_name := some "Acme", total_amount := some 7 }
          line_items := []
          file_path := "b.pdf" },
      headerPart r = { vendor_name := some "Acme", total_amount := some 7 } ∧
      r.item_description = "No line items found" ∧
      r.quantity = none ∧ r.unit_price = none ∧
      r.line_total = none ∧ r.item_code = none := by
  have h := flatten_no_items "T"
    { header := { vendor_name := some "Acme", total_amount := some 7 }
      line_items := []
      file_path := "b.pdf" } rfl
  exact ⟨h.1, h.2⟩

/-! ## Grouping by file (`utils/summary_generator.py`)

Both `analyze_processing_results` and `generate_invoice_summary_table`
build a Python dict `files_data` keyed by `record.file_path`,
appending each record to the list at its key.  A Python dict preserves
insertion order, so the dict is modelled as an association list grown
by the same loop. -/

section Grouping

variable {α : Type}

/-- One step of collecting the distinct keys in first-occurrence
order (the key order of the dict). -/
def dstep (key : α → String) (ps : List String) (r : α) : List String :=
  if key r ∈ ps then ps else ps ++ [key r]

/-- The distinct keys of `rs` in first-occurrence order. -/
def distinctKeys (key : α → String) (rs : List α) : List String :=
  rs.foldl (dstep key) []

/-- One step of the `files_data` dict-building loop. -/
def gstep (key : α → String) (acc : List (String × List α)) (r : α) :
    List (String × List α) :=
  if key r ∈ acc.map Prod.fst then
    acc.map (fun p => if p.1 = key r then (p.1, p.2 ++ [r]) else p)
  else acc ++ [(key r, [r])]

/-- The `files_data` association list: records grouped by key in
first-occurrence order. -/
def groupByKey (key : α → String) (rs : List α) : List (String × List α) :=
  rs.foldl (gstep key) []

theorem mem_foldl_dstep (key : α → String) :
    ∀ (rs : List α) (ps : List String) (p : String),
      (p ∈ rs.foldl (dstep key) ps ↔ p ∈ ps ∨ ∃ r ∈ rs, key r = p)
  | [], ps, p => by simp
  | r :: rs, ps, p => by
    rw [List.foldl_cons, mem_foldl_dstep key rs]
    unfold dstep
    by_cases hk : key r ∈ ps
    · rw [if_pos hk]
      constructor
      · rintro (h | h)
        · exact Or.inl h
        · exact Or.inr ⟨_, by simp [h.choose_spec.1], h.choose_spec.2⟩
      · rintro (h | ⟨r', hr', hkr⟩)
        · exact Or.inl h
        · rcases List.mem_cons.1 hr' with h0 | h0
          · subst h0; subst hkr; exact Or.inl hk
          · exact Or.inr ⟨r', h0, hkr⟩
    · rw [if_neg hk]
      constructor
      · rintro (h | h)
        · rcases List.mem_append.1 h with h0 | h0
          · exact Or.inl h0
          · exact Or.inr ⟨r, List.mem_cons_self r rs,
              (List.mem_singleton.1 h0).symm⟩
        · exact Or.inr ⟨_, List.mem_cons_of_mem r h.choose_spec.1,
            h.choose_spec.2⟩
      · rintro (h | ⟨r', hr', hkr⟩)
        · exact Or.inl (List.mem_append.2 (Or.inl h))
        · rcases List.mem_cons.1 hr' with h0 | h0
          · subst h0
            exact Or.inl (List.mem_append.2 (Or.inr (by simp [hkr])))
          · exact Or.inr ⟨r', h0, hkr⟩

theorem nodup_foldl_dstep (key : α → String) :
    ∀ (rs : List α) (ps : List String), ps.Nodup →
      (rs.foldl (dstep key) ps).Nodup
  | [], ps, h => h
  | r :: rs, ps, h => by
    rw [List.foldl_cons]
    apply nodup_foldl_dstep key rs
    unfold dstep
    by_cases hk : key r ∈ ps
    · rwa [if_pos hk]
    · rw [if_neg hk]
      simp [List.nodup_append, h, hk]

theorem distinctKeys_nodup (key : α → String) (rs : List α) :
    (distinctKeys key rs).Nodup :=
  nodup_foldl_dstep key rs [] List.nodup_nil

theorem mem_distinctKeys (key : α → String) (rs : List α) (p : String) :
    p ∈ distinctKeys key rs ↔ ∃ r ∈ rs, key r = p := by
  rw [distinctKeys, mem_foldl_dstep key rs]
  simp

/-- The dict-building loop, characterised: starting from an
accumulator whose entry for `p` holds the already-seen records with
key `p`, it ends with the grouped view of everything. -/
theorem foldl_gstep_eq (key : α → String) :
    ∀ (rs : List α) (ps : List String) (done : List α),
      (∀ r ∈ done, key r ∈ ps) →
      rs.foldl (gstep key)
          (ps.map (fun p => (p, done.filter (fun r => key r = p)))) =
        (rs.foldl (dstep key) ps).map
          (fun p => (p, (done ++ rs).filter (fun r => key r = p)))
  | [], ps, done, _ => by simp
  | r :: rs, ps, done, hinv => by
    rw [List.foldl_cons, List.foldl_cons]
    by_cases hk : key r ∈ ps
    · have hstep : gstep key
          (ps.map (fun p => (p, done.filter (fun r' => key r' = p)))) r =
          ps.map (fun p => (p, (done ++ [r]).filter (fun r' => key r' = p))) := by
        unfold gstep
        rw [if_pos (by simpa [List.map_map, Function.comp] using hk)]
        rw [List.map_map]
        apply List.map_congr_left
        intro p _
        simp only [Function.comp]
        by_cases hp : p = key r
        · rw [if_pos hp, List.filter_append]
          subst hp
          simp
        · rw [if_neg hp, List.filter_append]
          have : [r].filter (fun r' => key r' = p) = [] := by
            simp only [List.filter_eq_nil_iff]
            intro a ha
            rw [List.mem_singleton.1 ha]
            simpa using Ne.symm hp
          rw [this, List.append_nil]
      have hd : dstep key ps r = ps := by unfold dstep; rw [if_pos hk]
      rw [hstep, hd,
        foldl_gstep_eq key rs ps (done ++ [r])
          (by intro r' hr'
              rcases List.mem_append.1 hr' with h0 | h0
              · exact hinv r' h0
              · rw [List.mem_singleton.1 h0]; exact hk)]
      simp
    · have hstep : gstep key
          (ps.map (fun p => (p, done.filter (fun r' => key r' = p)))) r =
          (ps ++ [key r]).map
            (fun p => (p, (done ++ [r]).filter (fun r' => key r' = p))) := by
        unfold gstep
        rw [if_neg (by simpa [List.map_map, Function.comp] using hk)]
        rw [List.map_append]
        congr 1
        · apply List.map_congr_left
          intro p hp
          have hne : p ≠ key r := fun h => hk (h ▸ hp)
          rw [List.filter_append]
          have : [r].filter (fun r' => key r' = p) = [] := by
            simp only [List.filter_eq_nil_iff]
            intro a ha
            rw [List.mem_singleton.1 ha]
            simpa using Ne.symm hne
          rw [this, List.append_nil]
        · have : done.filter (fun r' => key r' = key r) = [] := by
            simp only [List.filter_eq_nil_iff]
            intro a ha hcontra
            have heq : key a = key r := by simpa using hcontra
            exact hk (heq ▸ hinv a ha)
          simp [List.filter_append, this]
      have hd : dstep key ps r = ps ++ [key r] := by
        unfold dstep; rw [if_neg hk]
      rw [hstep, hd,
        foldl_gstep_eq key rs (ps ++ [key r]) (done ++ [r])
          (by intro r' hr'
              rcases List.mem_append.1 hr' with h0 | h0
              · exact List.mem_append.2 (Or.inl (hinv r' h0))
              · rw [List.mem_singleton.1 h0]
                exact List.mem_append.2 (Or.inr (by simp)))]
      simp

/-- The grouped dict equals the list of distinct keys paired with the
filtered records, in first-occurrence order. -/
theorem groupByKey_eq (key : α → String) (rs : List α) :
    groupByKey key rs =
      (distinctKeys key rs).map
        (fun p => (p, rs.filter (fun r => key r = p))) := by
  have := foldl_gstep_eq key rs [] [] (by simp)
  simpa [groupByKey, distinctKeys] using this

/-- The head of a filtered list is the first match. -/
theorem head?_filter (q : α → Bool) :
    ∀ l : List α, (l.filter q).head? = l.find? q
  | [] => rfl
  | a :: l => by
    rw [List.filter_cons, List.find?_cons]
    cases h : q a
    · simp [head?_filter q l]
    · simp

end Grouping

/-! ## `analyze_processing_results` (`utils/summary_generator.py`) -/

/-- The three-way outcome classification used by the reporting code. -/
inductive ExtractionClass where
  | success
  | ocrOnly
  | failed
deriving DecidableEq, Repr

/-- The sentinel tests applied to the representative record of a file
(lines 46–51 of `summary_generator.py`): the OCR-only check takes
priority over the failed check. -/
def classifyRecord (r : FlatInvoiceRecord) : ExtractionClass :=
  if r.vendor_name = some "Unknown (OCR only)" then ExtractionClass.ocrOnly
  else if r.item_description = "No line items found" then
    ExtractionClass.failed
  else ExtractionClass.success

/-- Classification of one `files_data` group from its first record
(`file_records[0]`); groups built by `groupByKey` are never empty, so
the `[]` case is unreachable. -/
def classifyGroup : String × List FlatInvoiceRecord → ExtractionClass
  | (_, []) => ExtractionClass.success
  | (_, r :: _) => classifyRecord r

/-- The dictionary returned by `analyze_processing_results`;
`total_line_items` is `none` when the key is absent (empty input). -/
structure AnalysisResult where
  total_files : Nat
  successful_extractions : Nat
  ocr_only : Nat
  failed_extractions : Nat
  success_rate : ℚ
  total_line_items : Option Nat
deriving DecidableEq, Repr

/-- `InvoiceSummaryGenerator.analyze_processing_results`. -/
def analyze_processing_results (records : List FlatInvoiceRecord) :
    AnalysisResult :=
  if records.isEmpty then
    { total_files := 0
      successful_extractions := 0
      ocr_only := 0
      failed_extractions := 0
      success_rate := 0
      total_line_items := none }
  else
    let files_data := groupByKey (fun r => r.file_path) records
    let total_files := files_data.length
    let successful_extractions :=
      files_data.countP (fun g => classifyGroup g = ExtractionClass.success)
    let ocr_only :=
      files_data.countP (fun g => classifyGroup g = ExtractionClass.ocrOnly)
    let failed_extractions :=
      files_data.countP (fun g => classifyGroup g = ExtractionClass.failed)
    let success_rate : ℚ :=
      if 0 < total_files then
        (successful_extractions : ℚ) / (total_files : ℚ) * 100
      else 0
    { total_files := total_files
      successful_extractions := successful_extractions
      ocr_only := ocr_only
      failed_extractions := failed_extractions
      success_rate := success_rate
      total_line_items := some records.length }

/-- The classification of the file `p`, read from the first record of
`rs` whose `file_path` is `p` (the first record of the group of `p`). -/
def classOfFile (rs : List FlatInvoiceRecord) (p : String) :
    ExtractionClass :=
  match rs.find? (fun r => r.file_path = p) with
  | some r => classifyRecord r
  | none => ExtractionClass.success

/-- `classifyGroup` on a group depends only on the head of the group. -/
theorem classifyGroup_eq_head (p : String)
    (l : List FlatInvoiceRecord) :
    classifyGroup (p, l) =
      (match l.head? with
       | some r => classifyRecord r
       | none => ExtractionClass.success) := by
  cases l <;> rfl

/-- C5. On non-empty input, `analyze_processing_results` groups by
`file_path`, classifies each distinct file from its first record, and
reports the distinct-file count, the three class counts, the success
rate `successful / total * 100`, and the record count; on empty input
the success rate is `0`. -/
theorem analyze_spec (rs : List FlatInvoiceRecord) (hne : rs ≠ []) :
    (distinctKeys (fun r => r.file_path) rs).Nodup ∧
    (∀ p, p ∈ distinctKeys (fun r => r.file_path) rs ↔
      ∃ r ∈ rs, r.file_path = p) ∧
    analyze_processing_results rs =
      { total_files := (distinctKeys (fun r => r.file_path) rs).length
        successful_extractions := (distinctKeys (fun r => r.file_path)
          rs).countP (fun p => classOfFile rs p = ExtractionClass.success)
        ocr_only := (distinctKeys (fun r => r.file_path) rs).countP
          (fun p => classOfFile rs p = ExtractionClass.ocrOnly)
        failed_extractions := (distinctKeys (fun r => r.file_path)
          rs).countP (fun p => classOfFile rs p = ExtractionClass.failed)
        success_rate := (((distinctKeys (fun r => r.file_path) rs).countP
            (fun p => classOfFile rs p = ExtractionClass.success) : ℚ) /
          ((distinctKeys (fun r => r.file_path) rs).length : ℚ)) * 100
        total_line_items := some rs.length } ∧
    (analyze_processing_results []).success_rate = 0 := by
  have hkey := groupByKey_eq (fun r : FlatInvoiceRecord => r.file_path) rs
  have hclass : ∀ p,
      classifyGroup (p, rs.filter (fun r => r.file_path = p)) =
        classOfFile rs p := by
    intro p
    rw [classifyGroup_eq_head, head?_filter]
    rfl
  have hcount : ∀ c : ExtractionClass,
      (groupByKey (fun r => r.file_path) rs).countP
          (fun g => classifyGroup g = c) =
        (distinctKeys (fun r => r.file_path) rs).countP
          (fun p => classOfFile rs p = c) := by
    intro c
    rw [hkey, List.countP_map]
    apply List.countP_congr
    intro p _
    simp only [Function.comp]
    rw [hclass p]
  have hlen : (groupByKey (fun r => r.file_path) rs).length =
      (distinctKeys (fun r => r.file_path) rs).length := by
    rw [hkey, List.length_map]
  have hpos : 0 < (distinctKeys (fun r => r.file_path) rs).length := by
    cases hrs : rs with
    | nil => exact absurd hrs hne
    | cons r rest =>
      apply List.length_pos.2
      apply List.ne_nil_of_mem (a := r.file_path)
      rw [mem_distinctKeys]
      exact ⟨r, hrs ▸ List.mem_cons_self r rest, rfl⟩
  refine ⟨distinctKeys_nodup _ rs, fun p => mem_distinctKeys _ rs p,
    ?_, rfl⟩
  have hemp : rs.isEmpty = false := by
    cases rs with
    | nil => exact absurd rfl hne
    | cons a l => rfl
  unfold analyze_processing_results
  rw [hemp]
  simp only [Bool.false_eq_true, if_false]
  rw [hcount ExtractionClass.success, hcount ExtractionClass.ocrOnly,
    hcount ExtractionClass.failed, hlen, if_pos hpos]

/-- Closed witness for `analyze_spec`: two files, one successful and
one OCR-only. -/
theorem analyze_spec_witness :
    (analyze_processing_results
        [{ vendor_name := some "Acme", item_description := "Widget",
           file_path := "a.pdf" },
         { vendor_name := some "Unknown (OCR only)",
           item_description := "OCR Text (AI extraction failed): x...",
           file_path := "b.pdf" },
         { vendor_name := some "Acme", item_description := "Gadget",
           file_path := "a.pdf" }]).total_files = 2 ∧
    (analyze_processing_results
        [{ vendor_name := some "Acme", item_description := "Widget",
           file_path := "a.pdf" },
         { vendor_name := some "Unknown (OCR only)",
           item_description := "OCR Text (AI extraction failed): x...",
           file_path := "b.pdf" },
         { vendor_name := some "Acme", item_description := "Gadget",
           file_path := "a.pdf" }]).successful_extractions = 1 ∧
    (analyze_processing_results
        [{ vendor_name := some "Acme", item_description := "Widget",
           file_path := "a.pdf" },
         { vendor_name := some "Unknown (OCR only)",
           item_description := "OCR Text (AI extraction failed): x...",
           file_path := "b.pdf" },
         { vendor_name := some "Acme", item_description := "Gadget",
           file_path := "a.pdf" }]).ocr_only = 1 ∧
    (analyze_processing_results
        [{ vendor_name := some "Acme", item_description := "Widget",
           file_path := "a.pdf" },
         { vendor_name := some "Unknown (OCR only)",
           item_description := "OCR Text (AI extraction failed): x...",
           file_path := "b.pdf" },
         { vendor_name := some "Acme", item_description := "Gadget",
           file_path := "a.pdf" }]).success_rate = 50 ∧
    (analyze_processing_results
        [{ vendor_name := some "Acme", item_description := "Widget",
           file_path := "a.pdf" },
         { vendor_name := some "Unknown (OCR only)",
           item_description := "OCR Text (AI extraction failed): x...",
           file_path := "b.pdf" },
         { vendor_name := some "Acme", item_description := "Gadget",
           file_path := "a.pdf" }]).total_line_items = some 3 := by
  have h := (analyze_spec
    [{ vendor_name := some "Acme", item_description := "Widget",
       file_path := "a.pdf" },
     { vendor_name := some "Unknown (OCR only)",
       item_description := "OCR Text (AI extraction failed): x...",
       file_path := "b.pdf" },
     { vendor_name := some "Acme", item_description := "Gadget",
       file_path := "a.pdf" }] (by decide)).2.2.1
  rw [h]
  refine ⟨by decide, by decide, by decide, ?_, by decide⟩
  norm_num [show (distinctKeys (fun r : FlatInvoiceRecord => r.file_path)
    [{ vendor_name := some "Acme", item_description := "Widget",
       file_path := "a.pdf" },
     { vendor_name := some "Unknown (OCR only)",
       item_description := "OCR Text (AI extraction failed): x...",
       file_path := "b.pdf" },
     { vendor_name := some "Acme", item_description := "Gadget",
       file_path := "a.pdf" }]).countP
      (fun p => classOfFile
        [{ vendor_name := some "Acme", item_description := "Widget",
           file_path := "a.pdf" },
         { vendor_name := some "Unknown (OCR only)",
           item_description := "OCR Text (AI extraction failed): x...",
           file_path := "b.pdf" },
         { vendor_name := some "Acme", item_description := "Gadget",
           file_path := "a.pdf" }] p = ExtractionClass.success) = 1
    from by decide,
    show (distinctKeys (fun r : FlatInvoiceRecord => r.file_path)
      [{ vendor_name := some "Acme", item_description := "Widget",
         file_path := "a.pdf" },
       { vendor_name := some "Unknown (OCR only)",
         item_description := "OCR Text (AI extraction failed): x...",
         file_path := "b.pdf" },
       { vendor_name := some "Acme", item_description := "Gadget",
         file_path := "a.pdf" }]).length = 2 from by decide]

/-- C10. On the empty record list the result carries no
`total_line_items` entry and all counts and the rate are zero; on any
non-empty list `total_line_items` is present and equals the input
length. -/
theorem analyze_total_line_items (rs : List FlatInvoiceRecord) :
    analyze_processing_results [] =
      { total_files := 0, successful_extractions := 0, ocr_only := 0,
        failed_extractions := 0, success_rate := 0,
        total_line_items := none } ∧
    (rs ≠ [] →
      (analyze_processing_results rs).total_line_items = some rs.length) := by
  constructor
  · rfl
  · intro hne
    have hemp : rs.isEmpty = false := by
      cases rs with
      | nil => exact absurd rfl hne
      | cons a l => rfl
    unfold analyze_processing_results
    rw [hemp]
    rfl

/-- Closed witness for `analyze_total_line_items` on a one-record
list. -/
theorem analyze_total_line_items_witness :
    (analyze_processing_results
        [{ item_description := "Widget", file_path := "a.pdf" }]
      ).total_line_items =
      some [({ item_description := "Widget", file_path := "a.pdf" }
        : FlatInvoiceRecord)].length :=
  (analyze_total_line_items
    [{ item_description := "Widget", file_path := "a.pdf" }]).2 (by decide)

/-! ## `generate_financial_summary` (`utils/summary_generator.py`) -/

/-- Python truthiness of an optional `Decimal`: `None` and `0` are
falsy. -/
def qTruthy : Option ℚ → Bool
  | none => false
  | some q => decide (q ≠ 0)

/-- The row filter of `generate_financial_summary` (lines 134–138):
`r.total_amount and r.vendor_name != "Unknown (OCR only)" and
r.item_description != "No line items found"`. -/
def validRow (r : FlatInvoiceRecord) : Bool :=
  qTruthy r.total_amount &&
  decide (r.vendor_name ≠ some "Unknown (OCR only)") &&
  decide (r.item_description ≠ "No line items found")

/-- `currencies.add(record.currency)` guarded by `if record.currency:`
(the Python set is modelled as a first-occurrence-ordered list). -/
def cstep (cs : List String) (c : Option String) : List String :=
  match c with
  | some s => if s ≠ "" then (if s ∈ cs then cs else cs ++ [s]) else cs
  | none => cs

/-- One step of the `invoice_totals` / `currencies` loop (lines
147–152): the first record of each file wins. -/
def fstep (acc : List (String × ℚ) × List String)
    (r : FlatInvoiceRecord) : List (String × ℚ) × List String :=
  if r.file_path ∈ acc.1.map Prod.fst then acc
  else (acc.1 ++ [(r.file_path, r.total_amount.getD 0)],
    cstep acc.2 r.currency)

/-- `min(totals)` (guarded non-empty in the source). -/
def pyMin : List ℚ → ℚ
  | [] => 0
  | a :: l => l.foldl min a

/-- `max(totals)` (guarded non-empty in the source). -/
def pyMax : List ℚ → ℚ
  | [] => 0
  | a :: l => l.foldl max a

/-- The dictionary returned by `generate_financial_summary`: empty for
empty input, a message when no row qualifies, numeric data
otherwise. -/
inductive FinancialSummary where
  | empty
  | message (msg : String)
  | data (total_invoices_with_amounts : Nat)
      (total_value average_invoice_value min_invoice max_invoice : ℚ)
      (currencies : List String)
deriving DecidableEq, Repr

/-- `InvoiceSummaryGenerator.generate_financial_summary`.
`record.total_amount` is stored through `Option.getD 0`; the filter
guarantees it is `some`. -/
def generate_financial_summary (records : List FlatInvoiceRecord) :
    FinancialSummary :=
  if records.isEmpty then FinancialSummary.empty
  else
    let valid_records := records.filter validRow
    if valid_records.isEmpty then
      FinancialSummary.message "No valid financial data extracted"
    else
      let acc := valid_records.foldl fstep ([], [])
      let totals := acc.1.map Prod.snd
      FinancialSummary.data totals.length totals.sum
        (totals.sum / (totals.length : ℚ))
        (pyMin totals) (pyMax totals) acc.2

/-- The total of the first record for each distinct file, in
first-occurrence order: the intended reading of the
`invoice_totals` dict. -/
def firstTotals (vs : List FlatInvoiceRecord) : List (String × ℚ) :=
  (distinctKeys (fun r => r.file_path) vs).map
    (fun p =>
      (p, match vs.find? (fun r => r.file_path = p) with
          | some r => r.total_amount.getD 0
          | none => 0))

/-- The currency attached to the first record of a distinct file. -/
def firstCurrency (vs : List FlatInvoiceRecord) (p : String) :
    Option String :=
  match vs.find? (fun r => r.file_path = p) with
  | some r => r.currency
  | none => none

/-- The currencies collected from the first record of each distinct
file, deduplicated, in file order. -/
def firstCurrencies (vs : List FlatInvoiceRecord) : List String :=
  (distinctKeys (fun r => r.file_path) vs).foldl
    (fun cs p => cstep cs (firstCurrency vs p)) []

theorem foldl_congr_mem {α β : Type} :
    ∀ (l : List α) (f g : β → α → β) (init : β),
      (∀ acc a, a ∈ l → f acc a = g acc a) →
      l.foldl f init = l.foldl g init
  | [], _, _, _, _ => rfl
  | a :: l, f, g, init, h => by
    rw [List.foldl_cons, List.foldl_cons,
      h init a (List.mem_cons_self a l)]
    exact foldl_congr_mem l f g _ (fun acc b hb =>
      h acc b (List.mem_cons_of_mem a hb))

theorem find?_append_of_some {α : Type} {q : α → Bool} {l₁ l₂ : List α}
    {a : α} (h : l₁.find? q = some a) :
    (l₁ ++ l₂).find? q = some a := by
  rw [List.find?_append, h]
  rfl

theorem find?_mem_of_key (vs : List FlatInvoiceRecord) (p : String)
    (hp : p ∈ distinctKeys (fun r => r.file_path) vs) :
    ∃ a, vs.find? (fun r => r.file_path = p) = some a := by
  rcases (mem_distinctKeys _ vs p).1 hp with ⟨r, hr, hkey⟩
  have : (vs.find? (fun r => r.file_path = p)).isSome := by
    rw [List.find?_isSome]
    exact ⟨r, hr, by simpa using hkey⟩
  exact Option.isSome_iff_exists.1 this

/-- The `invoice_totals` / `currencies` loop, characterised over an
already-processed prefix `done`. -/
theorem foldl_fstep_eq :
    ∀ (vs done : List FlatInvoiceRecord),
      vs.foldl fstep (firstTotals done, firstCurrencies done) =
        (firstTotals (done ++ vs), firstCurrencies (done ++ vs))
  | [], done => by rw [List.append_nil]; rfl
  | r :: vs, done => by
    rw [List.foldl_cons]
    have hkeys : (firstTotals done).map Prod.fst =
        distinctKeys (fun r => r.file_path) done := by
      rw [firstTotals, List.map_map]
      exact List.map_id _
    have hdk : distinctKeys (fun r : FlatInvoiceRecord => r.file_path)
        (done ++ [r]) =
        dstep (fun r : FlatInvoiceRecord => r.file_path)
          (distinctKeys (fun r => r.file_path) done) r := by
      rw [distinctKeys, distinctKeys, List.foldl_append]
      rfl
    by_cases hk : r.file_path ∈ distinctKeys (fun r => r.file_path) done
    · have hfind : ∀ p, p ∈ distinctKeys
          (fun r : FlatInvoiceRecord => r.file_path) done →
          (done ++ [r]).find? (fun r' => r'.file_path = p) =
            done.find? (fun r' => r'.file_path = p) := by
        intro p hp
        rcases find?_mem_of_key done p hp with ⟨a, ha⟩
        rw [find?_append_of_some ha, ha]
      have hT : firstTotals (done ++ [r]) = firstTotals done := by
        rw [firstTotals, firstTotals, hdk]
        unfold dstep
        rw [if_pos hk]
        apply List.map_congr_left
        intro p hp
        rw [hfind p hp]
      have hC : firstCurrencies (done ++ [r]) = firstCurrencies done := by
        rw [firstCurrencies, firstCurrencies, hdk]
        unfold dstep
        rw [if_pos hk]
        apply foldl_congr_mem
        intro acc p hp
        rw [firstCurrency, firstCurrency, hfind p hp]
      have hstep : fstep (firstTotals done, firstCurrencies done) r =
          (firstTotals done, firstCurrencies done) := by
        unfold fstep
        rw [if_pos (by rw [hkeys]; exact hk)]
      rw [hstep]
      have := foldl_fstep_eq vs (done ++ [r])
      rw [hT, hC] at this
      rw [this]
      simp
    · have hfind : ∀ p, p ∈ distinctKeys
          (fun r : FlatInvoiceRecord => r.file_path) done →
          (done ++ [r]).find? (fun r' => r'.file_path = p) =
            done.find? (fun r' => r'.file_path = p) := by
        intro p hp
        rcases find?_mem_of_key done p hp with ⟨a, ha⟩
        rw [find?_append_of_some ha, ha]
      have hnone : done.find? (fun r' => r'.file_path = r.file_path) =
          none := by
        rw [List.find?_eq_none]
        intro x hx hcontra
        exact hk ((mem_distinctKeys _ done r.file_path).2
          ⟨x, hx, by simpa using hcontra⟩)
      have hnew : (done ++ [r]).find?
          (fun r' => r'.file_path = r.file_path) = some r := by
        rw [List.find?_append, hnone]
        simp [List.find?_cons]
      have hT : firstTotals (done ++ [r]) =
          firstTotals done ++ [(r.file_path, r.total_amount.getD 0)] := by
        rw [firstTotals, firstTotals, hdk]
        unfold dstep
        rw [if_neg hk, List.map_append]
        congr 1
        · apply List.map_congr_left
          intro p hp
          rw [hfind p hp]
        · simp only [List.map_cons, List.map_nil, hnew]
      have hC : firstCurrencies (done ++ [r]) =
          cstep (firstCurrencies done) r.currency := by
        rw [firstCurrencies, firstCurrencies, hdk]
        unfold dstep
        rw [if_neg hk, List.foldl_append]
        have hbody : (distinctKeys
            (fun r : FlatInvoiceRecord => r.file_path) done).foldl
            (fun cs p => cstep cs (firstCurrency (done ++ [r]) p)) [] =
            (distinctKeys (fun r : FlatInvoiceRecord => r.file_path)
              done).foldl
            (fun cs p => cstep cs (firstCurrency done p)) [] := by
          apply foldl_congr_mem
          intro acc p hp
          rw [firstCurrency, firstCurrency, hfind p hp]
        rw [hbody]
        simp only [List.foldl_cons, List.foldl_nil]
        rw [firstCurrency, hnew]
      have hstep : fstep (firstTotals done, firstCurrencies done) r =
          (firstTotals done ++ [(r.file_path, r.total_amount.getD 0)],
            cstep (firstCurrencies done) r.currency) := by
        unfold fstep
        rw [if_neg (by rw [hkeys]; exact hk)]
      rw [hstep]
      have := foldl_fstep_eq vs (done ++ [r])
      rw [hT, hC] at this
      rw [this]
      simp

/-- The loop starting from empty accumulators yields the first-record
totals and currencies. -/
theorem foldl_fstep_closed (vs : List FlatInvoiceRecord) :
    vs.foldl fstep ([], []) = (firstTotals vs, firstCurrencies vs) := by
  have := foldl_fstep_eq vs []
  simpa [firstTotals, firstCurrencies, distinctKeys] using this

theorem foldl_min_spec :
    ∀ (t : List ℚ) (a : ℚ),
      t.foldl min a ∈ a :: t ∧ ∀ x ∈ a :: t, t.foldl min a ≤ x
  | [], a => by simp
  | b :: t, a => by
    rw [List.foldl_cons]
    rcases foldl_min_spec t (min a b) with ⟨hmem, hle⟩
    have hab : min a b = a ∨ min a b = b := min_choice a b
    constructor
    · rcases List.mem_cons.1 hmem with h0 | h0
      · rcases hab with h1 | h1
        · exact List.mem_cons.2 (Or.inl (h0.trans h1))
        · exact List.mem_cons.2 (Or.inr (List.mem_cons.2
            (Or.inl (h0.trans h1))))
      · exact List.mem_cons.2 (Or.inr (List.mem_cons.2 (Or.inr h0)))
    · intro x hx
      rcases List.mem_cons.1 hx with h0 | h0
      · rw [h0]
        exact le_trans (hle _ (List.mem_cons_self _ _)) (min_le_left a b)
      · rcases List.mem_cons.1 h0 with h1 | h1
        · rw [h1]
          exact le_trans (hle _ (List.mem_cons_self _ _))
            (min_le_right a b)
        · exact hle x (List.mem_cons_of_mem _ h1)

theorem foldl_max_spec :
    ∀ (t : List ℚ) (a : ℚ),
      t.foldl max a ∈ a :: t ∧ ∀ x ∈ a :: t, x ≤ t.foldl max a
  | [], a => by simp
  | b :: t, a => by
    rw [List.foldl_cons]
    rcases foldl_max_spec t (max a b) with ⟨hmem, hle⟩
    have hab : max a b = a ∨ max a b = b := max_choice a b
    constructor
    · rcases List.mem_cons.1 hmem with h0 | h0
      · rcases hab with h1 | h1
        · exact List.mem_cons.2 (Or.inl (h0.trans h1))
        · exact List.mem_cons.2 (Or.inr (List.mem_cons.2
            (Or.inl (h0.trans h1))))
      · exact List.mem_cons.2 (Or.inr (List.mem_cons.2 (Or.inr h0)))
    · intro x hx
      rcases List.mem_cons.1 hx with h0 | h0
      · rw [h0]
        exact le_trans (le_max_left a b) (hle _ (List.mem_cons_self _ _))
      · rcases List.mem_cons.1 h0 with h1 | h1
        · rw [h1]
          exact le_trans (le_max_right a b)
            (hle _ (List.mem_cons_self _ _))
        · exact hle x (List.mem_cons_of_mem _ h1)

theorem pyMin_spec (l : List ℚ) (h : l ≠ []) :
    pyMin l ∈ l ∧ ∀ x ∈ l, pyMin l ≤ x := by
  cases l with
  | nil => exact absurd rfl h
  | cons a t => exact foldl_min_spec t a

theorem pyMax_spec (l : List ℚ) (h : l ≠ []) :
    pyMax l ∈ l ∧ ∀ x ∈ l, x ≤ pyMax l := by
  cases l with
  | nil => exact absurd rfl h
  | cons a t => exact foldl_max_spec t a

/-- The records of the C6 counterexample: one file whose first row
carries the OCR sentinel while its second row has a usable total. -/
def finCexRecords : List FlatInvoiceRecord :=
  [{ vendor_name := some "Unknown (OCR only)",
     item_description := "OCR Text (AI extraction failed): scan...",
     file_path := "A.pdf" },
   { vendor_name := some "Acme", item_description := "Widget",
     total_amount := some 100, currency := some "EUR",
     file_path := "A.pdf" }]

/-- The two-file example of the claim: totals 100 and 200, both EUR,
both rows individually clean. -/
def finExampleRecords : List FlatInvoiceRecord :=
  [{ vendor_name := some "VendorA", item_description := "ItemA",
     total_amount := some 100, currency := some "EUR",
     file_path := "A" },
   { vendor_name := some "VendorB", item_description := "ItemB",
     total_amount := some 200, currency := some "EUR",
     file_path := "B" }]

/-- The data branch of `generate_financial_summary`, characterised by
the first-record totals and currencies. -/
theorem generate_financial_summary_data (records : List FlatInvoiceRecord)
    (hfil : records.filter validRow ≠ []) :
    generate_financial_summary records =
      FinancialSummary.data
        ((firstTotals (records.filter validRow)).map Prod.snd).length
        ((firstTotals (records.filter validRow)).map Prod.snd).sum
        (((firstTotals (records.filter validRow)).map Prod.snd).sum /
          ((((firstTotals (records.filter validRow)).map
            Prod.snd).length : ℚ)))
        (pyMin ((firstTotals (records.filter validRow)).map Prod.snd))
        (pyMax ((firstTotals (records.filter validRow)).map Prod.snd))
        (firstCurrencies (records.filter validRow)) := by
  have hne : records ≠ [] := by
    intro h
    subst h
    exact hfil rfl
  have hemp : records.isEmpty = false := by
    cases records with
    | nil => exact absurd rfl hne
    | cons a l => rfl
  have hfemp : (records.filter validRow).isEmpty = false := by
    cases hf : records.filter validRow with
    | nil => exact absurd hf hfil
    | cons a l => rfl
  unfold generate_financial_summary
  rw [hemp]
  simp only [Bool.false_eq_true, if_false]
  rw [hfemp]
  simp only [Bool.false_eq_true, if_false]
  rw [foldl_fstep_closed]

/-- C6 counterexample.  `generate_financial_summary` filters rows by
row-level sentinel tests, not by the per-file classification: here the
single file `"A.pdf"` is classified OCR-only (its first record carries
the sentinel vendor), yet its second row is counted, so the result is
numeric data, not the no-data message the claim requires. -/
theorem financial_summary_cex :
    classOfFile finCexRecords "A.pdf" = ExtractionClass.ocrOnly ∧
    finCexRecords.map (fun r => r.file_path) = ["A.pdf", "A.pdf"] ∧
    generate_financial_summary finCexRecords =
      FinancialSummary.data 1 100 100 100 100 ["EUR"] := by
  refine ⟨by decide, by decide, ?_⟩
  rw [generate_financial_summary_data finCexRecords (by decide)]
  have hT : (firstTotals (finCexRecords.filter validRow)).map Prod.snd =
      [(100 : ℚ)] := by decide
  have hC : firstCurrencies (finCexRecords.filter validRow) = ["EUR"] := by
    decide
  rw [hT, hC]
  have hmin : pyMin [(100 : ℚ)] = 100 := by decide
  have hmax : pyMax [(100 : ℚ)] = 100 := by decide
  rw [hmin, hmax]
  simp only [List.length_cons, List.length_nil, List.sum_cons,
    List.sum_nil]
  norm_num

/-- C6 (amended). `generate_financial_summary` keeps the rows that
individually have a truthy total, a vendor other than the OCR
sentinel, and a description other than the no-items sentinel; it
deduplicates to one total per file, first occurrence winning, and
returns count, sum, mean, and the minimum and maximum of those
per-file totals plus the currencies of the first qualifying row of
each file; with no qualifying rows it returns the explanatory message
(empty input yields an empty dictionary instead).  The two-file
example of the claim evaluates as the claim states. -/
theorem financial_summary_spec (records : List FlatInvoiceRecord) :
    (records = [] →
      generate_financial_summary records = FinancialSummary.empty) ∧
    (records ≠ [] → records.filter validRow = [] →
      generate_financial_summary records =
        FinancialSummary.message "No valid financial data extracted") ∧
    (records.filter validRow ≠ [] →
      generate_financial_summary records =
        FinancialSummary.data
          ((firstTotals (records.filter validRow)).map Prod.snd).length
          ((firstTotals (records.filter validRow)).map Prod.snd).sum
          (((firstTotals (records.filter validRow)).map Prod.snd).sum /
            ((((firstTotals (records.filter validRow)).map
              Prod.snd).length : ℚ)))
          (pyMin ((firstTotals (records.filter validRow)).map Prod.snd))
          (pyMax ((firstTotals (records.filter validRow)).map Prod.snd))
          (firstCurrencies (records.filter validRow)) ∧
      pyMin ((firstTotals (records.filter validRow)).map Prod.snd) ∈
        (firstTotals (records.filter validRow)).map Prod.snd ∧
      (∀ x ∈ (firstTotals (records.filter validRow)).map Prod.snd,
        pyMin ((firstTotals (records.filter validRow)).map Prod.snd)
          ≤ x) ∧
      pyMax ((firstTotals (records.filter validRow)).map Prod.snd) ∈
        (firstTotals (records.filter validRow)).map Prod.snd ∧
      (∀ x ∈ (firstTotals (records.filter validRow)).map Prod.snd,
        x ≤ pyMax ((firstTotals (records.filter validRow)).map
          Prod.snd))) ∧
    generate_financial_summary finExampleRecords =
      FinancialSummary.data 2 300 150 100 200 ["EUR"] := by
  refine ⟨?_, ?_, ?_, ?_⟩
  · intro h; subst h; rfl
  · intro hne hfil
    have hemp : records.isEmpty = false := by
      cases records with
      | nil => exact absurd rfl hne
      | cons a l => rfl
    unfold generate_financial_summary
    rw [hemp]
    simp only [Bool.false_eq_true, if_false]
    rw [hfil]
    rfl
  · intro hfil
    have htne : (firstTotals (records.filter validRow)).map Prod.snd
        ≠ [] := by
      intro hcontra
      have h1 : firstTotals (records.filter validRow) = [] :=
        List.map_eq_nil_iff.1 hcontra
      have h2 : distinctKeys (fun r : FlatInvoiceRecord => r.file_path)
          (records.filter validRow) = [] := by
        have hlen := congrArg List.length h1
        rw [firstTotals, List.length_map] at hlen
        exact List.length_eq_zero.1 hlen
      cases hv : records.filter validRow with
      | nil => exact hfil hv
      | cons v rest =>
        have hmem : v.file_path ∈ distinctKeys
            (fun r : FlatInvoiceRecord => r.file_path)
            (records.filter validRow) := by
          rw [mem_distinctKeys]
          exact ⟨v, by rw [hv]; exact List.mem_cons_self v rest, rfl⟩
        rw [h2] at hmem
        exact List.not_mem_nil _ hmem
    exact ⟨generate_financial_summary_data records hfil,
      (pyMin_spec _ htne).1, (pyMin_spec _ htne).2,
      (pyMax_spec _ htne).1, (pyMax_spec _ htne).2⟩
  · rw [generate_financial_summary_data finExampleRecords (by decide)]
    have hT : (firstTotals (finExampleRecords.filter validRow)).map
        Prod.snd = [(100 : ℚ), 200] := by decide
    have hC : firstCurrencies (finExampleRecords.filter validRow) =
        ["EUR"] := by decide
    rw [hT, hC]
    have hmin : pyMin [(100 : ℚ), 200] = 100 := by decide
    have hmax : pyMax [(100 : ℚ), 200] = 200 := by decide
    rw [hmin, hmax]
    simp only [List.length_cons, List.length_nil, List.sum_cons,
      List.sum_nil]
    norm_num

/-- Closed witness for `financial_summary_spec`: a single OCR-only row
qualifies no rows, producing the message. -/
theorem financial_summary_spec_witness :
    generate_financial_summary
        [{ vendor_name := some "Unknown (OCR only)",
           item_description := "OCR Text (AI extraction failed): x...",
           total_amount := some 50, file_path := "C.pdf" }] =
      FinancialSummary.message "No valid financial data extracted" :=
  (financial_summary_spec
    [{ vendor_name := some "Unknown (OCR only)",
       item_description := "OCR Text (AI extraction failed): x...",
       total_amount := some 50, file_path := "C.pdf" }]).2.1
    (by decide) (by decide)

/-! ## Products preview (`generate_invoice_summary_table`) -/

/-- Python `str.startswith`, by code points. -/
def startsWithStr (s pre : String) : Bool :=
  decide (s.data.take pre.data.length = pre.data)

/-- The row filter of the products loop (lines 99–102 of
`summary_generator.py`): a truthy description, not the no-items
sentinel, and not starting with `"OCR Text"`. -/
def prodKeep (d : String) : Bool :=
  decide (d ≠ "") && decide (d ≠ "No line items found") &&
  !(startsWithStr d "OCR Text")

/-- The `products` list collected from the records of one file. -/
def productsOf (file_records : List FlatInvoiceRecord) : List String :=
  (file_records.filter (fun r => prodKeep r.item_description)).map
    (fun r => r.item_description)

/-- The `Products` cell: `"; ".join(products[:2])` plus `"..."` when
more than two were collected, `"N/A"` when none were. -/
def productsCell (file_records : List FlatInvoiceRecord) : String :=
  let products := productsOf file_records
  if products.isEmpty then "N/A"
  else
    String.intercalate "; " (products.take 2) ++
      (if 2 < products.length then "..." else "")

/-- The same cell computed directly over the description list of the
file,
duplicates retained (the amended reading of the claim). -/
def productsCellRowWise (file_records : List FlatInvoiceRecord) :
    String :=
  let qual := (file_records.map (fun r => r.item_description)).filter
    prodKeep
  if qual.isEmpty then "N/A"
  else
    String.intercalate "; " (qual.take 2) ++
      (if 2 < qual.length then "..." else "")

/-- The cell the claim describes: up to 2 distinct descriptions,
excluding only the two sentinel values (the no-items sentinel and the
OCR-failure description), ellipsis iff more than 2 distinct ones
exist. -/
def productsCellClaim (file_records : List FlatInvoiceRecord) :
    String :=
  let descs := distinctKeys (fun d : String => d)
    ((file_records.map (fun r => r.item_description)).filter
      (fun d => decide (d ≠ "No line items found") &&
        !(startsWithStr d "OCR Text (AI extraction failed): ")))
  if descs.isEmpty then "N/A"
  else
    String.intercalate "; " (descs.take 2) ++
      (if 2 < descs.length then "..." else "")

/-- The `Products` column of the summary table: one entry per distinct
file, in first-occurrence order. -/
def summaryTableProducts (records : List FlatInvoiceRecord) :
    List (String × String) :=
  (groupByKey (fun r => r.file_path) records).map
    (fun g => (g.1, productsCell g.2))

/-- C9 counterexample.  The code keeps duplicate descriptions and
excludes every description starting with `"OCR Text"`; the
distinct-with-exact-sentinels reading of the claim gives a different cell on a file
whose rows are `A, A, "OCR Text summary", A`. -/
theorem products_cex :
    productsCell
        [{ item_description := "A", file_path := "p.pdf" },
         { item_description := "A", file_path := "p.pdf" },
         { item_description := "OCR Text summary", file_path := "p.pdf" },
         { item_description := "A", file_path := "p.pdf" }] = "A; A..." ∧
    productsCellClaim
        [{ item_description := "A", file_path := "p.pdf" },
         { item_description := "A", file_path := "p.pdf" },
         { item_description := "OCR Text summary", file_path := "p.pdf" },
         { item_description := "A", file_path := "p.pdf" }] =
      "A; OCR Text summary" ∧
    productsCell
        [{ item_description := "A", file_path := "p.pdf" },
         { item_description := "A", file_path := "p.pdf" },
         { item_description := "OCR Text summary", file_path := "p.pdf" },
         { item_description := "A", file_path := "p.pdf" }] ≠
      productsCellClaim
        [{ item_description := "A", file_path := "p.pdf" },
         { item_description := "A", file_path := "p.pdf" },
         { item_description := "OCR Text summary", file_path := "p.pdf" },
         { item_description := "A", file_path := "p.pdf" }] := by
  refine ⟨by decide, by decide, by decide⟩

theorem map_filter_comm {α β : Type} (f : α → β) (q : β → Bool) :
    ∀ l : List α,
      (l.filter (fun a => q (f a))).map f = (l.map f).filter q
  | [] => rfl
  | a :: l => by
    rw [List.map_cons, List.filter_cons, List.filter_cons]
    cases h : q (f a)
    · simp only [h, Bool.false_eq_true, if_false]
      exact map_filter_comm f q l
    · simp only [h, if_true, List.map_cons]
      rw [map_filter_comm f q l]

/-- C9 (amended).  The `Products` cell of each distinct file joins the
first two qualifying descriptions in row order (duplicates retained,
excluding empty ones, the no-items sentinel, and any description
starting with `"OCR Text"`), appends an ellipsis iff more than two
qualify counting duplicates, and is `"N/A"` when none qualify. -/
theorem products_spec (records : List FlatInvoiceRecord) :
    summaryTableProducts records =
      (distinctKeys (fun r => r.file_path) records).map
        (fun p =>
          (p, productsCell (records.filter (fun r => r.file_path = p)))) ∧
    ∀ file_records : List FlatInvoiceRecord,
      productsCell file_records = productsCellRowWise file_records := by
  constructor
  · rw [summaryTableProducts,
      groupByKey_eq (fun r : FlatInvoiceRecord => r.file_path) records,
      List.map_map]
    rfl
  · intro frs
    have h : productsOf frs =
        (frs.map (fun r => r.item_description)).filter prodKeep :=
      map_filter_comm (fun r : FlatInvoiceRecord => r.item_description)
        prodKeep frs
    rw [productsCell, productsCellRowWise, h]

/-! ## File-system model (`utils/file_utils.py`)

A `pathlib` path is a list of components; the set of existing files is
a list of such paths.  `ensure_directory` only creates directories, so
it is a no-op on the file set. -/

/-- A POSIX path as its list of components. -/
abbrev PPath := List String

/-- `path.name`: the final component. -/
def nameOfPath (p : PPath) : String := p.getLastD ""

/-- Decimal digits of `n` (big-endian), with explicit fuel; this is
the rendering of the f-string counter `f"{counter}"`. -/
def toDecAux : Nat → Nat → List Char
  | 0, _ => []
  | fuel + 1, n =>
    if n = 0 then [] else toDecAux fuel (n / 10) ++ [Nat.digitChar (n % 10)]

/-- Decimal rendering of a natural number. -/
def decRepr (n : Nat) : String :=
  if n = 0 then "0" else String.mk (toDecAux n n)

/-- Reads decimal digits back (left inverse of the rendering). -/
def decVal (cs : List Char) : Nat :=
  cs.foldl (fun a c => 10 * a + (c.toNat - 48)) 0

theorem decVal_append_digit (l : List Char) (c : Char) :
    decVal (l ++ [c]) = 10 * decVal l + (c.toNat - 48) := by
  simp [decVal, List.foldl_append]

theorem digitChar_toNat_sub (d : Nat) (h : d < 10) :
    (Nat.digitChar d).toNat - 48 = d := by
  interval_cases d <;> rfl

theorem decVal_toDecAux : ∀ (fuel n : Nat), n ≤ fuel →
    decVal (toDecAux fuel n) = n
  | 0, n, h => by
    have : n = 0 := Nat.le_zero.1 h
    subst this
    rfl
  | fuel + 1, n, h => by
    by_cases h0 : n = 0
    · subst h0; rfl
    · rw [toDecAux, if_neg h0, decVal_append_digit,
        decVal_toDecAux fuel (n / 10)
          (by
            have hlt : n / 10 < n := Nat.div_lt_self (Nat.pos_of_ne_zero h0)
              (by omega)
            omega),
        digitChar_toNat_sub (n % 10) (Nat.mod_lt n (by omega))]
      omega

theorem toDecAux_ne_nil (fuel n : Nat) (h0 : n ≠ 0) (hf : fuel ≠ 0) :
    toDecAux fuel n ≠ [] := by
  cases fuel with
  | zero => exact absurd rfl hf
  | succ f =>
    rw [toDecAux, if_neg h0]
    simp

theorem decRepr_inj {a b : Nat} (h : decRepr a = decRepr b) : a = b := by
  have hval : ∀ n : Nat, decVal (decRepr n).data = n := by
    intro n
    by_cases h0 : n = 0
    · subst h0; rfl
    · rw [decRepr, if_neg h0]
      exact decVal_toDecAux n n le_rfl
  have := congrArg (fun s => decVal s.data) h
  simpa [hval] using this

/-- `original_destination.parent / f"{stem}_{counter}{suffix}"`: the
candidate tried for counter value `k`. -/
def destCandidate (destination : PPath) (k : Nat) : PPath :=
  destination.dropLast ++
    [stemOf (nameOfPath destination) ++ "_" ++ decRepr k ++
      suffixOf (nameOfPath destination)]

theorem destCandidate_inj (destination : PPath) {k1 k2 : Nat}
    (h : destCandidate destination k1 = destCandidate destination k2) :
    k1 = k2 := by
  unfold destCandidate at h
  have h1 := List.append_cancel_left h
  have h2 : stemOf (nameOfPath destination) ++ "_" ++ decRepr k1 ++
      suffixOf (nameOfPath destination) =
      stemOf (nameOfPath destination) ++ "_" ++ decRepr k2 ++
      suffixOf (nameOfPath destination) := by
    injection h1
  have h3 := congrArg String.data h2
  simp only [String.data_append, List.append_assoc,
    List.singleton_append] at h3
  have h4 := List.append_cancel_left h3
  injection h4 with h5 h6
  have h7 := List.append_cancel_right h6
  exact decRepr_inj (String.ext h7)

/-- The collision `while` loop: try `destCandidate destination k`,
incrementing `k`, for at most `fuel` steps. -/
def searchFrom (fs : List PPath) (destination : PPath) :
    Nat → Nat → Option PPath
  | 0, _ => none
  | fuel + 1, counter =>
    if destCandidate destination counter ∈ fs then
      searchFrom fs destination fuel (counter + 1)
    else some (destCandidate destination counter)

/-- Lines 83–89 of `file_utils.py`: keep the destination when free,
otherwise search suffixes from `counter = 1`.  The fuel
`fs.length + 1` always suffices (`resolveDestination_spec`). -/
def resolveDestination (fs : List PPath) (destination : PPath) :
    Option PPath :=
  if destination ∈ fs then
    searchFrom fs destination (fs.length + 1) 1
  else some destination

/-- Lines 70–80: preserve the path relative to `input_base_dir` when
the source lies strictly below it, else fall back to the base name.
`input_base_dir in source.parents` holds exactly for the proper
ancestors of `source`. -/
def plannedDestination (source processed_dir : PPath)
    (input_base_dir : Option PPath) : PPath :=
  match input_base_dir with
  | some base =>
    if base.length < source.length ∧ source.take base.length = base then
      processed_dir ++ source.drop base.length
    else processed_dir ++ [nameOfPath source]
  | none => processed_dir ++ [nameOfPath source]

/-- `move_processed_file(source, processed_dir, input_base_dir)` on
the file set `fs`: the rename removes the source and adds the resolved
destination. -/
def move_processed_file (fs : List PPath) (source processed_dir : PPath)
    (input_base_dir : Option PPath) : Option (List PPath × PPath) :=
  match resolveDestination fs
    (plannedDestination source processed_dir input_base_dir) with
  | some d => some (fs.erase source ++ [d], d)
  | none => none

theorem exists_free_candidate (fs : List PPath) (d : PPath) :
    ∃ k, 1 ≤ k ∧ k ≤ fs.length + 1 ∧ destCandidate d k ∉ fs := by
  by_contra hcon
  push_neg at hcon
  have hall : ∀ k, 1 ≤ k → k ≤ fs.length + 1 → destCandidate d k ∈ fs :=
    hcon
  have hinj : Function.Injective (fun i : Nat => destCandidate d (i + 1)) := by
    intro i j hij
    have := destCandidate_inj d hij
    omega
  have hnodup : ((List.range (fs.length + 1)).map
      (fun i => destCandidate d (i + 1))).Nodup :=
    (List.nodup_range _).map hinj
  have hsub : (List.range (fs.length + 1)).map
      (fun i => destCandidate d (i + 1)) ⊆ fs := by
    intro x hx
    rcases List.mem_map.1 hx with ⟨i, hi, rfl⟩
    exact hall (i + 1) (by omega) (by
      have := List.mem_range.1 hi
      omega)
  have hlen := (List.subperm_of_subset hnodup hsub).length_le
  rw [List.length_map, List.length_range] at hlen
  omega

theorem searchFrom_spec (fs : List PPath) (d : PPath) :
    ∀ (fuel start : Nat),
      (∃ j, start ≤ j ∧ j < start + fuel ∧ destCandidate d j ∉ fs) →
      ∃ m, searchFrom fs d fuel start = some (destCandidate d m) ∧
        start ≤ m ∧ destCandidate d m ∉ fs ∧
        ∀ j, start ≤ j → j < m → destCandidate d j ∈ fs
  | 0, start, h => by
    rcases h with ⟨j, hj1, hj2, _⟩
    omega
  | fuel + 1, start, h => by
    rw [searchFrom]
    by_cases hc : destCandidate d start ∈ fs
    · rw [if_pos hc]
      have hnext : ∃ j, start + 1 ≤ j ∧ j < (start + 1) + fuel ∧
          destCandidate d j ∉ fs := by
        rcases h with ⟨j, hj1, hj2, hj3⟩
        refine ⟨j, ?_, by omega, hj3⟩
        rcases Nat.eq_or_lt_of_le hj1 with h0 | h0
        · exact absurd (h0 ▸ hc) hj3
        · omega
      rcases searchFrom_spec fs d fuel (start + 1) hnext with
        ⟨m, hm1, hm2, hm3, hm4⟩
      refine ⟨m, hm1, by omega, hm3, ?_⟩
      intro j hj1 hj2
      rcases Nat.eq_or_lt_of_le hj1 with h0 | h0
      · exact h0 ▸ hc
      · exact hm4 j h0 hj2
    · rw [if_neg hc]
      exact ⟨start, rfl, le_rfl, hc, fun j hj1 hj2 => by omega⟩

/-- The collision search always succeeds: the result is the original
destination when free, else `destCandidate` at the least counter
`k ≥ 1` whose candidate is free, every smaller counter having
collided. -/
theorem resolveDestination_spec (fs : List PPath) (d : PPath) :
    ∃ r, resolveDestination fs d = some r ∧ r ∉ fs ∧
      ((d ∉ fs ∧ r = d) ∨
       (d ∈ fs ∧ ∃ k, 1 ≤ k ∧ r = destCandidate d k ∧
         ∀ j, 1 ≤ j → j < k → destCandidate d j ∈ fs)) := by
  unfold resolveDestination
  by_cases hd : d ∈ fs
  · rw [if_pos hd]
    have hex : ∃ j, 1 ≤ j ∧ j < 1 + (fs.length + 1) ∧
        destCandidate d j ∉ fs := by
      rcases exists_free_candidate fs d with ⟨k, hk1, hk2, hk3⟩
      exact ⟨k, hk1, by omega, hk3⟩
    rcases searchFrom_spec fs d (fs.length + 1) 1 hex with
      ⟨m, hm1, hm2, hm3, hm4⟩
    exact ⟨destCandidate d m, hm1, hm3,
      Or.inr ⟨hd, m, hm2, rfl, hm4⟩⟩
  · rw [if_neg hd]
    exact ⟨d, rfl, hd, Or.inl ⟨hd, rfl⟩⟩

theorem not_mem_erase_self :
    ∀ {l : List PPath}, l.Nodup → ∀ a : PPath, a ∉ l.erase a
  | [], _, a => by simp
  | b :: t, h, a => by
    rw [List.erase_cons]
    by_cases hba : b = a
    · subst hba
      simp only [beq_self_eq_true, if_true]
      exact (List.nodup_cons.1 h).1
    · have : (b == a) = false := by
        simp [hba]
      rw [this]
      simp only [Bool.false_eq_true, if_false]
      intro hmem
      rcases List.mem_cons.1 hmem with h0 | h0
      · exact hba h0.symm
      · exact not_mem_erase_self (List.nodup_cons.1 h).2 a h0

/-- C7. The archival move always succeeds; the chosen destination is
the planned one when free, otherwise the candidate at the least
counter `k ≥ 1` whose suffix is free, all smaller counters having
been tried and found colliding (monotone from 1, step 1, no reuse);
the destination is new, and the source is gone afterwards.  The
concrete scenario: three moves of files named `a.pdf` into the same
directory yield `a.pdf`, `a_1.pdf`, `a_2.pdf`, pairwise distinct, all
present, with every source path gone. -/
theorem move_collision_spec :
    (∀ (fs : List PPath) (source processed_dir : PPath)
        (input_base_dir : Option PPath),
      fs.Nodup → source ∈ fs →
      ∃ fs' d,
        move_processed_file fs source processed_dir input_base_dir =
          some (fs', d) ∧
        d ∉ fs ∧ d ∈ fs' ∧ source ∉ fs' ∧
        ((plannedDestination source processed_dir input_base_dir ∉ fs ∧
          d = plannedDestination source processed_dir input_base_dir) ∨
         (plannedDestination source processed_dir input_base_dir ∈ fs ∧
          ∃ k, 1 ≤ k ∧
            d = destCandidate
              (plannedDestination source processed_dir input_base_dir) k ∧
            ∀ j, 1 ≤ j → j < k →
              destCandidate
                (plannedDestination source processed_dir input_base_dir)
                j ∈ fs))) ∧
    (move_processed_file
        [["in1", "a.pdf"], ["in2", "a.pdf"], ["in3", "a.pdf"]]
        ["in1", "a.pdf"] ["proc"] none =
      some ([["in2", "a.pdf"], ["in3", "a.pdf"], ["proc", "a.pdf"]],
        ["proc", "a.pdf"]) ∧
     move_processed_file
        [["in2", "a.pdf"], ["in3", "a.pdf"], ["proc", "a.pdf"]]
        ["in2", "a.pdf"] ["proc"] none =
      some ([["in3", "a.pdf"], ["proc", "a.pdf"], ["proc", "a_1.pdf"]],
        ["proc", "a_1.pdf"]) ∧
     move_processed_file
        [["in3", "a.pdf"], ["proc", "a.pdf"], ["proc", "a_1.pdf"]]
        ["in3", "a.pdf"] ["proc"] none =
      some ([["proc", "a.pdf"], ["proc", "a_1.pdf"], ["proc", "a_2.pdf"]],
        ["proc", "a_2.pdf"]) ∧
     (["in1", "a.pdf"] : PPath) ∉
      ([["proc", "a.pdf"], ["proc", "a_1.pdf"], ["proc", "a_2.pdf"]] :
        List PPath) ∧
     (["in2", "a.pdf"] : PPath) ∉
      ([["proc", "a.pdf"], ["proc", "a_1.pdf"], ["proc", "a_2.pdf"]] :
        List PPath) ∧
     (["in3", "a.pdf"] : PPath) ∉
      ([["proc", "a.pdf"], ["proc", "a_1.pdf"], ["proc", "a_2.pdf"]] :
        List PPath) ∧
     (["proc", "a.pdf"] : PPath) ≠ ["proc", "a_1.pdf"] ∧
     (["proc", "a_1.pdf"] : PPath) ≠ ["proc", "a_2.pdf"] ∧
     (["proc", "a.pdf"] : PPath) ≠ ["proc", "a_2.pdf"]) := by
  constructor
  · intro fs source processed_dir input_base_dir hnd hsrc
    rcases resolveDestination_spec fs
      (plannedDestination source processed_dir input_base_dir) with
      ⟨r, hr1, hr2, hr3⟩
    refine ⟨fs.erase source ++ [r], r, ?_, hr2, ?_, ?_, hr3⟩
    · unfold move_processed_file
      rw [hr1]
    · exact List.mem_append.2 (Or.inr (by simp))
    · intro hmem
      rcases List.mem_append.1 hmem with h0 | h0
      · exact not_mem_erase_self hnd source h0
      · exact hr2 ((List.mem_singleton.1 h0) ▸ hsrc)
  · refine ⟨by decide, by decide, by decide, by decide, by decide,
      by decide, by decide, by decide, by decide⟩

/-- Closed witness for `move_collision_spec` at a colliding
destination. -/
theorem move_collision_spec_witness :
    ∃ fs' d,
      move_processed_file [["in", "a.pdf"], ["proc", "a.pdf"]]
          ["in", "a.pdf"] ["proc"] none =
        some (fs', d) ∧
      d ∉ ([["in", "a.pdf"], ["proc", "a.pdf"]] : List PPath) ∧
      d ∈ fs' ∧ (["in", "a.pdf"] : PPath) ∉ fs' ∧
      ((plannedDestination ["in", "a.pdf"] ["proc"] none ∉
          ([["in", "a.pdf"], ["proc", "a.pdf"]] : List PPath) ∧
        d = plannedDestination ["in", "a.pdf"] ["proc"] none) ∨
       (plannedDestination ["in", "a.pdf"] ["proc"] none ∈
          ([["in", "a.pdf"], ["proc", "a.pdf"]] : List PPath) ∧
        ∃ k, 1 ≤ k ∧
          d = destCandidate
            (plannedDestination ["in", "a.pdf"] ["proc"] none) k ∧
          ∀ j, 1 ≤ j → j < k →
            destCandidate
              (plannedDestination ["in", "a.pdf"] ["proc"] none) j ∈
              ([["in", "a.pdf"], ["proc", "a.pdf"]] : List PPath))) :=
  move_collision_spec.1 [["in", "a.pdf"], ["proc", "a.pdf"]]
    ["in", "a.pdf"] ["proc"] none (by decide) (by decide)

/-! ## File discovery (`get_invoice_files`) -/

/-- One entry below the searched directory: its relative path and
whether it is a regular file. -/
structure FsEntry where
  path : PPath
  isFile : Bool
deriving DecidableEq, Repr

/-- The `SUPPORTED_EXTENSIONS` constant (a Python set; its iteration
order is immaterial because the result is sorted). -/
def SUPPORTED_EXTENSIONS : List String :=
  [".pdf", ".png", ".jpg", ".jpeg", ".tiff", ".bmp"]

/-- POSIX `fnmatch` of the pattern `"*" + pat` against a name:
case-sensitive suffix match (this is what `rglob(f"*{pattern}")`
applies to the final component of every descendant). -/
def endsWithStr (s pat : String) : Bool :=
  decide (s.data.drop (s.data.length - pat.data.length) = pat.data)

/-- Python `str.lower()` (ASCII range, which covers the extension
constants). -/
def strToLower (s : String) : String :=
  String.mk (s.data.map Char.toLower)

/-- Lexicographic comparison of code-point lists: Python string
`<=`. -/
def charListLe : List Char → List Char → Bool
  | [], _ => true
  | _ :: _, [] => false
  | a :: as, b :: bs =>
    if a.toNat < b.toNat then true
    else if b.toNat < a.toNat then false
    else charListLe as bs

/-- The string rendering of a component path (the `str(path)` sort
key). -/
def pathStr (p : PPath) : String := String.intercalate "/" p

/-- `files.sort(key=str)` — a stable sort by path string, modelled as
insertion sort. -/
def orderedInsertLe (le : PPath → PPath → Bool) (a : PPath) :
    List PPath → List PPath
  | [] => [a]
  | b :: l => if le a b then a :: b :: l else b :: orderedInsertLe le a l

/-- Stable insertion sort over paths. -/
def insertionSortLe (le : PPath → PPath → Bool) :
    List PPath → List PPath
  | [] => []
  | a :: l => orderedInsertLe le a (insertionSortLe le l)

/-- `get_invoice_files(directory, recursive)` over a modelled
directory: `directory_exists` is `directory.exists()`, `entries` are
the descendants (relative paths).  The recursive branch replays
`rglob(f"*{ext}")` per lowercase extension (matching directories too,
case-sensitively, per POSIX `fnmatch`), deduplicates keeping first
occurrences, and both branches sort by path string. -/
def get_invoice_files (directory_exists : Bool) (entries : List FsEntry)
    (recursive : Bool) : List PPath :=
  if !directory_exists then []
  else
    let files :=
      if recursive then
        let collected := SUPPORTED_EXTENSIONS.foldl
          (fun acc pattern =>
            acc ++ (entries.filter
              (fun e => endsWithStr (nameOfPath e.path) pattern)).map
                (fun e => e.path)) []
        collected.foldl
          (fun acc p => if p ∈ acc then acc else acc ++ [p]) []
      else
        (entries.filter (fun e =>
          decide (e.path.length = 1) && e.isFile &&
          decide ((strToLower (suffixOf (nameOfPath e.path))) ∈
            SUPPORTED_EXTENSIONS))).map (fun e => e.path)
    insertionSortLe (fun a b => charListLe (pathStr a).data (pathStr b).data)
      files

/-- The C8 behaviour at the failing input: the default recursive branch
matches the lowercase patterns case-sensitively (POSIX `fnmatch`), so
`file.PDF` is not discovered even though the non-recursive branch (and
the test of the repository itself,
`test_get_files_case_insensitive_extensions`) treats extensions
case-insensitively; a missing directory still yields `[]`, and the
six lowercase extensions are discovered recursively, filtered and
sorted by path string. -/
theorem get_invoice_files_case_bug :
    get_invoice_files true [{ path := ["file.PDF"], isFile := true }]
      true = [] ∧
    get_invoice_files true [{ path := ["file.PDF"], isFile := true }]
      false = [["file.PDF"]] ∧
    get_invoice_files false [{ path := ["file.PDF"], isFile := true }]
      true = [] ∧
    get_invoice_files true
      [{ path := ["b.txt"], isFile := true },
       { path := ["a.pdf"], isFile := true },
       { path := ["sub", "c.png"], isFile := true },
       { path := ["d.doc"], isFile := true },
       { path := ["e.jpg"], isFile := true },
       { path := ["f.jpeg"], isFile := true },
       { path := ["g.tiff"], isFile := true },
       { path := ["h.bmp"], isFile := true }] true =
      [["a.pdf"], ["e.jpg"], ["f.jpeg"], ["g.tiff"], ["h.bmp"],
       ["sub", "c.png"]] := by
  refine ⟨by decide, by decide, by decide, by decide⟩

end InvoiceProc
